import Mathlib

/-!
The DM-VIO dataset driver `run` (src/main_dmvio_dataset.cpp) and the image deep
copy `ImageAndExposure::getDeepCopy` (src/dso/util/ImageAndExposure.h).

A shallow embedding of the dataset driver's frame loop and of the image deep
copy, followed by the properties of the driver contract.

Conventions of the embedding.

* C++ `int` values are Lean `Int`.  The only places where `run` can overflow
  are `end - 1` and `linc * lend` in reverse mode when `end` or `start` is
  `INT_MIN`; this is undefined behaviour in C++ and the embedding describes
  every other input.
* Everything `run` reads from another thread, from the wall clock or from the
  estimator (`FullSystem`, whose implementation is not part of the driver) is an
  input of the embedding: one `FrameEnv` record per iteration of the frame loop.
* A read of a `std::vector` outside its bounds is an error of the embedding
  (`RunError.outOfBounds`).
-/

namespace DmvioDataset

/-! ## Playback list (lines 99-113 and 140-156 of `run`) -/

/-- The ways `run` can stop without completing, and the out-of-bounds error of
the embedding. -/
inductive RunError where
  /-- The `exit(1)` of line 96: photometric calibration required but absent. -/
  | noPhotometricCalibration
  /-- The `assert(!setting_useIMU)` of line 106 failed. -/
  | assertionFailed
  /-- a `std::vector` was read outside its bounds. -/
  | outOfBounds
  /-- the fuel of a loop of the embedding ran out (shown not to happen). -/
  | outOfFuel
  deriving DecidableEq, Repr

deriving instance DecidableEq for Except

/-- Symbolic value of an entry of `timesToPlayAt`.  The entries are `double`s
computed from reader timestamps; the embedding records which timestamps entered
the computation instead of a floating-point value:
`next prev idThis idPrev` stands for
`prev + fabs(getTimestamp(idThis) - getTimestamp(idPrev)) / playbackSpeed`. -/
inductive PlayTime where
  | zero : PlayTime
  | next (prev : PlayTime) (idThis idPrev : Int) : PlayTime
  deriving DecidableEq, Repr

/-- The two vectors filled by the loop at lines 143-156. -/
structure Playlist where
  idsToPlay : List Int
  timesToPlayAt : List PlayTime
  deriving DecidableEq, Repr

/-- The read `v[k]` of a `std::vector` with an index computed in `size_t` arithmetic:
a negative `k` stands for a wrapped-around index, which is out of bounds. -/
def vecAt {α : Type} (v : List α) (k : Int) : Except RunError α :=
  if k < 0 then .error .outOfBounds
  else match v[k.toNat]? with
    | some x => .ok x
    | none => .error .outOfBounds

/-- The read `v.back()`. -/
def vecBack {α : Type} (v : List α) : Except RunError α :=
  match v.getLast? with
  | some x => .ok x
  | none => .error .outOfBounds

/-- The variables `lstart`, `lend`, `linc` as set at lines 99-113. -/
def loopBounds (start end_ : Int) (reverse : Bool) (numImages : Int) : Int × Int × Int :=
  if reverse then
    let lstart := end_ - 1
    let lstart := if lstart ≥ numImages then numImages - 1 else lstart
    (lstart, start, -1)
  else
    (start, end_, 1)

/-- The condition of the `for` at line 143. -/
def playCond (numImages lend linc i : Int) : Bool :=
  decide (i ≥ 0) && decide (i < numImages) && decide (linc * i < linc * lend)

/-- The body of the `for` at line 143 (lines 145-155). -/
def pushPlay (pl : Playlist) (i : Int) : Except RunError Playlist :=
  let ids := pl.idsToPlay ++ [i]
  if pl.timesToPlayAt.length = 0 then
    .ok ⟨ids, pl.timesToPlayAt ++ [PlayTime.zero]⟩
  else do
    let idThis ← vecAt ids ((ids.length : Int) - 1)
    let idPrev ← vecAt ids ((ids.length : Int) - 2)
    let back ← vecBack pl.timesToPlayAt
    .ok ⟨ids, pl.timesToPlayAt ++ [PlayTime.next back idThis idPrev]⟩

/-- The `for` at line 143, from loop variable `i`, with fuel. -/
def playLoop (numImages lend linc : Int) : Nat → Int → Playlist → Except RunError Playlist
  | 0, i, pl => if playCond numImages lend linc i then .error .outOfFuel else .ok pl
  | fuel + 1, i, pl =>
    if playCond numImages lend linc i then
      match pushPlay pl i with
      | .ok pl1 => playLoop numImages lend linc fuel (i + linc) pl1
      | .error e => .error e
    else .ok pl

/-- Lines 99-113 and 140-156: the vectors `idsToPlay` and `timesToPlayAt`.
Every pass of the loop stores a new id of `[0, numImages)`, so `numImages`
passes are enough fuel (`buildPlaylist_ok`). -/
def buildPlaylist (start end_ : Int) (reverse : Bool) (numImages : Int) :
    Except RunError Playlist :=
  let b := loopBounds start end_ reverse numImages
  playLoop numImages b.2.1 b.2.2 numImages.toNat b.1 ⟨[], []⟩

/-- The vector `idsToPlay` (empty if the construction failed, which
`buildPlaylist_ok` excludes). -/
def idsToPlay (start end_ : Int) (reverse : Bool) (numImages : Int) : List Int :=
  match buildPlaylist start end_ reverse numImages with
  | .ok pl => pl.idsToPlay
  | .error _ => []

/-- The `int numFramesProcessed` of line 317:
`abs(idsToPlay[0] - idsToPlay.back())`. -/
def numFramesProcessed (ids : List Int) : Except RunError Int := do
  let first ← vecAt ids 0
  let last ← vecBack ids
  .ok ((first - last).natAbs : Int)

/-! ## The frame loop (lines 123-138 and 186-304 of `run`) -/

/-- The output collaborators `run` can register (lines 128-138): the viewer
passed by `main` and the sample output wrapper. -/
inductive Output3DWrapper where
  | viewer
  | sampleOutput
  deriving DecidableEq, Repr

/-- The members of `FullSystem` that `run` reads or writes. -/
structure FullSystem where
  initFailed : Bool
  isLost : Bool
  outputWrapper : List Output3DWrapper
  deriving DecidableEq, Repr

/-- Modelled from the spec: the constructor of `FullSystem` is not part of the
driver.  A full reset "starts a fresh estimator instance": a new estimator has
failed no initialization, has not lost tracking and has no output collaborator
registered. -/
def FullSystem.fresh : FullSystem :=
  { initFailed := false, isLost := false, outputWrapper := [] }

/-- The file-scope and global settings `run` reads. -/
structure Settings where
  start : Int
  end_ : Int
  reverse : Bool
  setting_useIMU : Bool
  /-- Whether `mainSettings.playbackSpeed == 0` (which is `linearizeOperation`). -/
  playbackSpeedIsZero : Bool
  preload : Bool
  maxPreloadImages : Int
  useSampleOutput : Bool
  /-- Whether `viewer != 0`. -/
  hasViewer : Bool
  disableAllDisplay : Bool
  setting_photometricCalibration : Int
  /-- value of the global `setting_fullResetRequested` when `run` starts. -/
  setting_fullResetRequested : Bool
  /-- whether `assert` is compiled in (`NDEBUG` not defined). -/
  assertsEnabled : Bool
  deriving DecidableEq, Repr

/-- What `run` reads from the `ImageFolderReader`.  `Sample` is the element
type of `dmvio::IMUData`, which the driver only moves around. -/
structure ImageFolderReader (Sample : Type) where
  numImages : Int
  /-- Whether `getPhotometricGamma() != 0`. -/
  hasPhotometricGamma : Bool
  getIMUData : Int → List Sample
  /-- result of `loadGTData(gtFile)`. -/
  gtDataThere : Bool
  /-- the `found` flag set by `getGTData(i, found)`. -/
  gtFound : Int → Bool

/-- What one iteration of the frame loop reads from outside the driver. -/
structure FrameEnv where
  /-- the wall clock test of line 225 (reached when the test of line 221 fails):
  the frame is more than half a second late. -/
  tooLate : Bool
  /-- The flag `fullSystem->initFailed` of the estimator in use, as read at line 275. -/
  initFailed : Bool
  /-- The flag `fullSystem->isLost` of the estimator in use after the frame was
  handled. -/
  isLost : Bool
  /-- another thread has set `setting_fullResetRequested` since the last
  iteration. -/
  resetRequested : Bool
  /-- The value of `viewer->shouldQuit()` at line 293. -/
  shouldQuit : Bool
  deriving DecidableEq, Repr

/-- The arguments of one call `fullSystem->addActiveFrame(img, i, imuData, gt)`:
`img` is the image of id `id`, `imuData = none` is the null pointer, and
`gtData` tells whether a ground-truth record is passed. -/
structure Call (Sample : Type) where
  id : Int
  imuData : Option (List Sample)
  gtData : Bool
  deriving DecidableEq, Repr

/-- The variables that live across iterations of the frame loop. -/
structure LoopState (Sample : Type) where
  fullSystem : FullSystem
  imuDataSkipped : Bool
  skippedIMUData : List Sample
  setting_fullResetRequested : Bool
  deriving DecidableEq, Repr

/-- What one iteration of the frame loop did. -/
structure Step (Sample : Type) where
  ii : Nat
  id : Int
  /-- the loop variables when the iteration starts. -/
  before : LoopState Sample
  skipFrame : Bool
  /-- the call of line 258, if made. -/
  call : Option (Call Sample)
  /-- the samples appended to `skippedIMUData` at line 269, if that branch ran. -/
  carried : Option (List Sample)
  /-- Whether `viewer->addGTCamPose` was called (line 262). -/
  gtCamPose : Bool
  /-- The flag `fullSystem->initFailed` as read at line 275. -/
  initFailed : Bool
  /-- The flag `setting_fullResetRequested` as read at lines 275 and 277. -/
  fullResetRequested : Bool
  /-- lines 279-289 ran: the estimator was replaced. -/
  didReset : Bool
  /-- the `ow->reset()` calls of line 283, in order. -/
  resetCalls : List Output3DWrapper
  /-- The flag `isLost` of the estimator that was in use when the iteration started, after
  the frame was handled. -/
  isLost : Bool
  /-- The flag `fullSystem->isLost` as read at line 299. -/
  lostSeen : Bool
  /-- the loop was left by one of the `break`s (lines 296, 302). -/
  exited : Bool
  after : LoopState Sample
  deriving DecidableEq, Repr

variable {Sample : Type}

/-- The state before the first iteration: the estimator of line 124 with the
collaborators of lines 128-138, and the variables of lines 188-190. -/
def initialState (cfg : Settings) : LoopState Sample :=
  { fullSystem :=
      { FullSystem.fresh with
        outputWrapper :=
          (if cfg.hasViewer then [Output3DWrapper.viewer] else []) ++
          (if cfg.useSampleOutput then [Output3DWrapper.sampleOutput] else []) }
    imuDataSkipped := false
    skippedIMUData := []
    setting_fullResetRequested := cfg.setting_fullResetRequested }

/-- The `skipFrame` of lines 213-230. -/
def skipFrameOf (cfg : Settings) (env : FrameEnv) : Bool :=
  !cfg.playbackSpeedIsZero && env.tooLate

/-- One iteration of the frame loop (lines 194-303) at loop index `ii` with
`i = idsToPlay[ii]`. -/
def iteration (cfg : Settings) (reader : ImageFolderReader Sample) (ii : Nat) (i : Int)
    (env : FrameEnv) (st : LoopState Sample) : Step Sample :=
  let skipFrame := skipFrameOf cfg env
  -- lines 233-238
  let found := reader.gtDataThere && reader.gtFound i
  -- lines 241-245
  let imuData : Option (List Sample) :=
    if cfg.setting_useIMU then some (reader.getIMUData i) else none
  -- lines 248-270
  let handled : Option (Call Sample) × Option (List Sample) × Bool × List Sample :=
    if !skipFrame then
      match st.imuDataSkipped, imuData with
      | true, some d =>
        (some ⟨i, some (st.skippedIMUData ++ d), reader.gtDataThere && found⟩, none, false, [])
      | _, _ =>
        (some ⟨i, imuData, reader.gtDataThere && found⟩, none,
          st.imuDataSkipped, st.skippedIMUData)
    else
      match imuData with
      | some d => (none, some d, true, st.skippedIMUData ++ d)
      | none => (none, none, st.imuDataSkipped, st.skippedIMUData)
  let gtCamPose := !skipFrame && reader.gtDataThere && found && !cfg.disableAllDisplay
  -- lines 275-291
  let fs : FullSystem :=
    { st.fullSystem with initFailed := env.initFailed, isLost := env.isLost }
  let requested := st.setting_fullResetRequested || env.resetRequested
  let didReset := (fs.initFailed || requested) && (decide (ii < 250) || requested)
  let wraps := fs.outputWrapper
  let fs1 : FullSystem :=
    if didReset then { FullSystem.fresh with outputWrapper := wraps } else fs
  -- lines 293-303
  let quit := cfg.hasViewer && env.shouldQuit
  { ii := ii
    id := i
    before := st
    skipFrame := skipFrame
    call := handled.1
    carried := handled.2.1
    gtCamPose := gtCamPose
    initFailed := fs.initFailed
    fullResetRequested := requested
    didReset := didReset
    resetCalls := if didReset then wraps else []
    isLost := fs.isLost
    lostSeen := fs1.isLost
    exited := quit || fs1.isLost
    after :=
      { fullSystem := fs1
        imuDataSkipped := handled.2.2.1
        skippedIMUData := handled.2.2.2
        setting_fullResetRequested := if didReset then false else requested } }

/-- The `for` of line 192 over the remaining entries of `idsToPlay`, the next
loop index being `ii`; the result lists what each executed iteration did. -/
def frameLoop (cfg : Settings) (reader : ImageFolderReader Sample) (env : Nat → FrameEnv) :
    List Int → Nat → LoopState Sample → List (Step Sample)
  | [], _, _ => []
  | i :: rest, ii, st =>
    let s := iteration cfg reader ii i (env ii) st
    s :: (if s.exited then [] else frameLoop cfg reader env rest (ii + 1) s.after)

/-- The iterations of the frame loop of a whole run. -/
def runSteps (cfg : Settings) (reader : ImageFolderReader Sample) (env : Nat → FrameEnv) :
    List (Step Sample) :=
  frameLoop cfg reader env (idsToPlay cfg.start cfg.end_ cfg.reverse reader.numImages) 0
    (initialState cfg)

/-- The calls of `addActiveFrame` made by a list of iterations, in order. -/
def callsOf (steps : List (Step Sample)) : List (Call Sample) :=
  steps.filterMap (fun s => s.call)

/-- The inertial samples handed to `addActiveFrame` by a list of iterations,
concatenated in call order (a null batch contributes nothing). -/
def batchesOf (steps : List (Step Sample)) : List Sample :=
  ((callsOf steps).map (fun c => c.imuData.getD [])).flatten

/-- The inertial samples read from the reader for a list of frame ids,
concatenated in frame order. -/
def samplesRead (reader : ImageFolderReader Sample) (ids : List Int) : List Sample :=
  (ids.map reader.getIMUData).flatten

/-- The value of `mainSettings.preload` after lines 159-166. -/
def preloadInEffect (cfg : Settings) (numImages : Int) : Bool :=
  if cfg.preload && decide (cfg.maxPreloadImages > 0)
      && decide (numImages > cfg.maxPreloadImages) then false
  else cfg.preload

/-- The vector `preloadedImages` of lines 169-179; an image is represented by
the id it was loaded from. -/
def preloadedImages (cfg : Settings) (numImages : Int) (ids : List Int) : List Int :=
  if preloadInEffect cfg numImages then ids.map (fun i => i) else []

/-- What a completed `run` did: the iterations of the frame loop and the frame
count of the final statistics. -/
structure RunResult (Sample : Type) where
  steps : List (Step Sample)
  numFramesProcessed : Int
  deriving DecidableEq, Repr

/-- The function `run`. -/
def run (cfg : Settings) (reader : ImageFolderReader Sample) (env : Nat → FrameEnv) :
    Except RunError (RunResult Sample) :=
  if decide (cfg.setting_photometricCalibration > 0) && !reader.hasPhotometricGamma then
    .error .noPhotometricCalibration
  else if cfg.reverse && cfg.setting_useIMU && cfg.assertsEnabled then
    .error .assertionFailed
  else
    match buildPlaylist cfg.start cfg.end_ cfg.reverse reader.numImages with
    | .error e => .error e
    | .ok pl =>
      let steps := frameLoop cfg reader env pl.idsToPlay 0 (initialState cfg)
      match numFramesProcessed pl.idsToPlay with
      | .error e => .error e
      | .ok n => .ok ⟨steps, n⟩

/-! ## `ImageAndExposure` (src/dso/util/ImageAndExposure.h) -/

/-- An `ImageAndExposure` object.  `image` is the address of its `float` array;
`timestamp` (a `double`) and `exposure_time` (a `float`) are kept as their bit
patterns, since the class only stores and copies them. -/
structure ImageAndExposure where
  image : Nat
  w : Int
  h : Int
  timestamp : Nat
  exposure_time : Nat
  deriving DecidableEq, Repr

/-- The free store: the `ImageAndExposure` objects and the `float` arrays made
by `new`, each addressed by its position.  A `float` is kept as its bit
pattern. -/
structure Heap where
  images : List ImageAndExposure
  floats : List (List Nat)
  deriving DecidableEq, Repr

/-- Bit pattern of the `float` value `1`. -/
def floatOne : Nat := 0x3F800000

/-- The `sizeof(float)`. -/
def sizeofFloat : Nat := 4

/-- The expression `new ImageAndExposure(w_, h_, timestamp_)` (constructor of
lines 40-44).  `junk` gives the indeterminate contents of the new array.  The
result is `none` when `w_ * h_` is negative or not representable as `int`. -/
def newImageAndExposure (hp : Heap) (w_ h_ : Int) (timestamp_ : Nat) (junk : Nat → Nat) :
    Option (Heap × Nat) :=
  if w_ * h_ < 0 ∨ w_ * h_ ≥ 2 ^ 31 then none
  else
    let arr := hp.floats.length
    let obj := hp.images.length
    some
      ({ images := hp.images ++
           [{ image := arr, w := w_, h := h_, timestamp := timestamp_, exposure_time := floatOne }]
         floats := hp.floats ++ [(List.range (w_ * h_).toNat).map junk] },
       obj)

/-- The call `memcpy(dst, src, bytes)` between two `float` arrays: `none` when
an address is invalid, an array is too short, the byte count cuts a `float`, or
the regions overlap. -/
def memcpy (hp : Heap) (dst src : Nat) (bytes : Nat) : Option Heap :=
  match hp.floats[dst]?, hp.floats[src]? with
  | some d, some s =>
    let n := bytes / sizeofFloat
    if bytes % sizeofFloat = 0 ∧ n ≤ d.length ∧ n ≤ s.length ∧ (dst ≠ src ∨ n = 0) then
      some { hp with floats := hp.floats.set dst (s.take n ++ d.drop n) }
    else none
  | _, _ => none

/-- The method `getDeepCopy` (lines 59-65) called on the object at address
`this`; returns the new free store and the address of the copy. -/
def getDeepCopy (hp : Heap) (this : Nat) (junk : Nat → Nat) : Option (Heap × Nat) := do
  -- line 61
  let self ← hp.images[this]?
  let (hp1, img) ← newImageAndExposure hp self.w self.h self.timestamp junk
  -- line 62
  let self1 ← hp1.images[this]?
  let o ← hp1.images[img]?
  let hp2 : Heap :=
    { hp1 with images := hp1.images.set img { o with exposure_time := self1.exposure_time } }
  -- line 63
  let self2 ← hp2.images[this]?
  let o2 ← hp2.images[img]?
  let hp3 ← memcpy hp2 o2.image self2.image ((self2.w * self2.h).toNat * sizeofFloat)
  some (hp3, img)

/-- The pixels of the image object at address `a`: its `w * h` array entries. -/
def pixelsOf (hp : Heap) (a : Nat) : Option (List Nat) := do
  let o ← hp.images[a]?
  let px ← hp.floats[o.image]?
  some (px.take (o.w * o.h).toNat)

/-- The object at `a` is a well-formed image: its array exists and has `w * h`
entries, as the constructor makes it. -/
def WellFormedImage (hp : Heap) (a : Nat) : Prop :=
  ∃ o px, hp.images[a]? = some o ∧ hp.floats[o.image]? = some px ∧
    0 ≤ o.w ∧ 0 ≤ o.h ∧ o.w * o.h < 2 ^ 31 ∧ px.length = (o.w * o.h).toNat

/-! ## Auxiliary notions used in the proofs -/

/-- Distance of the loop variable from the end of the image range, in the
direction of travel: the number of passes the loop of line 143 can still make. -/
def passesLeft (numImages linc i : Int) : Int :=
  if linc = 1 then numImages - i else i + 1

/-- The carry buffer is empty whenever `imuDataSkipped` is unset. -/
def CarryInv (st : LoopState Sample) : Prop :=
  st.imuDataSkipped = false → st.skippedIMUData = []

/-! ## Concrete runs used as instances and counterexamples -/

/-- Forward playback of images 0, 1, 2 with inertial data, in real-time mode,
with a viewer and the sample output wrapper registered. -/
def cfgForward : Settings :=
  { start := 0, end_ := 3, reverse := false, setting_useIMU := true,
    playbackSpeedIsZero := false, preload := false, maxPreloadImages := 0,
    useSampleOutput := true, hasViewer := true, disableAllDisplay := false,
    setting_photometricCalibration := 0, setting_fullResetRequested := false,
    assertsEnabled := true }

/-- Reverse playback over the same range, image-only. -/
def cfgReverse : Settings :=
  { cfgForward with reverse := true, setting_useIMU := false }

/-- Forward playback of an empty range (`start = end = 0`). -/
def cfgEmpty : Settings :=
  { cfgForward with end_ := 0 }

/-- Forward playback of images 0 to 251. -/
def cfgLong : Settings :=
  { cfgForward with end_ := 252 }

/-- A reader with five images; image `i` comes with the two samples `10 i` and
`10 i + 1`. -/
def readerFive : ImageFolderReader Nat :=
  { numImages := 5, hasPhotometricGamma := true,
    getIMUData := fun i => [10 * i.toNat, 10 * i.toNat + 1],
    gtDataThere := false, gtFound := fun _ => false }

/-- The same reader with 300 images. -/
def readerLong : ImageFolderReader Nat :=
  { readerFive with numImages := 300 }

/-- Nothing happens: every frame is on time, the estimator reports nothing. -/
def envQuiet : Nat → FrameEnv := fun _ =>
  { tooLate := false, initFailed := false, isLost := false, resetRequested := false,
    shouldQuit := false }

/-- The first two frames are late. -/
def envLateStart : Nat → FrameEnv := fun ii =>
  { envQuiet ii with tooLate := decide (ii < 2) }

/-- The estimator is lost after the first frame and nothing else happens. -/
def envLost : Nat → FrameEnv := fun ii =>
  { envQuiet ii with isLost := decide (ii = 0) }

/-- The estimator is lost after the first frame while a full reset is
requested. -/
def envLostAndReset : Nat → FrameEnv := fun ii =>
  { envQuiet ii with isLost := decide (ii = 0), resetRequested := decide (ii = 0) }

/-- The estimator reports a failed initialization from the frame at loop index
250 on. -/
def envInitFailedLate : Nat → FrameEnv := fun ii =>
  { envQuiet ii with initFailed := decide (250 ≤ ii) }

/-- The ids a completed `run` handed to `addActiveFrame`, in order. -/
def runCallIds (cfg : Settings) (reader : ImageFolderReader Sample) (env : Nat → FrameEnv) :
    Except RunError (List Int) :=
  match run cfg reader env with
  | .ok r => .ok ((callsOf r.steps).map (fun c => c.id))
  | .error e => .error e

/-! ## Properties of the playback list -/

theorem vecAt_ok {α : Type} (v : List α) (k : Nat) (x : α) (h : v[k]? = some x) :
    vecAt v (k : Int) = .ok x := by
  simp [vecAt, h]

theorem pushPlay_ok (pl : Playlist) (i : Int)
    (hlen : pl.idsToPlay.length = pl.timesToPlayAt.length) :
    ∃ t, pushPlay pl i = .ok ⟨pl.idsToPlay ++ [i], pl.timesToPlayAt ++ [t]⟩ := by
  unfold pushPlay
  by_cases h0 : pl.timesToPlayAt.length = 0
  · exact ⟨PlayTime.zero, by simp [h0]⟩
  · have hpos : 0 < pl.idsToPlay.length := by omega
    obtain ⟨n, hn⟩ : ∃ n, pl.idsToPlay.length = n + 1 := ⟨pl.idsToPlay.length - 1, by omega⟩
    have hne : pl.timesToPlayAt ≠ [] := by
      intro h; apply h0; simp [h]
    have e1 : vecAt (pl.idsToPlay ++ [i]) (((pl.idsToPlay ++ [i]).length : Int) - 1) = .ok i := by
      have : (((pl.idsToPlay ++ [i]).length : Int) - 1) = ((n + 1 : Nat) : Int) := by
        simp [hn]
      rw [this]
      apply vecAt_ok
      simp [← hn]
    have hprev : ∃ p, pl.idsToPlay[n]? = some p := by
      have : n < pl.idsToPlay.length := by omega
      exact ⟨pl.idsToPlay[n], List.getElem?_eq_getElem this⟩
    obtain ⟨p, hp⟩ := hprev
    have e2 : vecAt (pl.idsToPlay ++ [i]) (((pl.idsToPlay ++ [i]).length : Int) - 2) = .ok p := by
      have : (((pl.idsToPlay ++ [i]).length : Int) - 2) = ((n : Nat) : Int) := by
        simp [hn]; omega
      rw [this]
      apply vecAt_ok
      rw [List.getElem?_append_left (by omega)]
      exact hp
    have e3 : vecBack pl.timesToPlayAt = .ok (pl.timesToPlayAt.getLast hne) := by
      simp [vecBack, List.getLast?_eq_getLast _ hne]
    refine ⟨PlayTime.next (pl.timesToPlayAt.getLast hne) i p, ?_⟩
    simp only [h0, if_false, e1, e2, e3]
    rfl

/-- Invariant of the loop of line 143: with enough fuel it ends normally, the
two vectors keep equal lengths, every stored id is an image index, and the ids
are stored in the direction of travel. -/
theorem playLoop_inv (numImages lend linc : Int) (hl : linc = 1 ∨ linc = -1) :
    ∀ (fuel : Nat) (i : Int) (pl : Playlist),
      pl.idsToPlay.length = pl.timesToPlayAt.length →
      (∀ x ∈ pl.idsToPlay, 0 ≤ x ∧ x < numImages ∧ linc * x < linc * i) →
      pl.idsToPlay.Pairwise (fun x y => linc * x < linc * y) →
      (0 ≤ i → i < numImages → passesLeft numImages linc i ≤ fuel) →
      ∃ r, playLoop numImages lend linc fuel i pl = .ok r ∧
        r.idsToPlay.length = r.timesToPlayAt.length ∧
        (∀ x ∈ r.idsToPlay, 0 ≤ x ∧ x < numImages) ∧
        r.idsToPlay.Pairwise (fun x y => linc * x < linc * y) := by
  intro fuel
  induction fuel with
  | zero =>
    intro i pl hlen hrange hpw hfuel
    have hc : playCond numImages lend linc i = false := by
      by_contra hc
      simp only [playCond, Bool.not_eq_false, Bool.and_eq_true, decide_eq_true_eq] at hc
      have := hfuel hc.1.1 hc.1.2
      unfold passesLeft at this
      rcases hl with h | h <;> simp [h] at this <;> omega
    exact ⟨pl, by simp [playLoop, hc], hlen, fun x hx => ⟨(hrange x hx).1, (hrange x hx).2.1⟩,
      hpw⟩
  | succ fuel ih =>
    intro i pl hlen hrange hpw hfuel
    by_cases hc : playCond numImages lend linc i = true
    · obtain ⟨t, ht⟩ := pushPlay_ok pl i hlen
      have hc1 := hc
      simp only [playCond, Bool.and_eq_true, decide_eq_true_eq] at hc1
      have hf := hfuel hc1.1.1 hc1.1.2
      obtain ⟨r, hr, h1, h2, h3⟩ := ih (i + linc) ⟨pl.idsToPlay ++ [i], pl.timesToPlayAt ++ [t]⟩
        (by simp [hlen])
        (by
          intro x hx
          simp only [List.mem_append, List.mem_singleton] at hx
          rcases hx with hx | hx
          · have := hrange x hx
            refine ⟨this.1, this.2.1, ?_⟩
            rcases hl with h | h <;> simp only [h] at this ⊢ <;> omega
          · subst hx
            refine ⟨hc1.1.1, hc1.1.2, ?_⟩
            rcases hl with h | h <;> simp only [h] <;> omega)
        (by
          rw [List.pairwise_append]
          refine ⟨hpw, List.pairwise_singleton _ _, ?_⟩
          intro x hx y hy
          simp only [List.mem_singleton] at hy
          subst hy
          exact (hrange x hx).2.2)
        (by
          intro _ _
          unfold passesLeft at hf ⊢
          rcases hl with h | h <;> simp [h] at hf ⊢ <;> omega)
      exact ⟨r, by simp [playLoop, hc, ht, hr], h1, h2, h3⟩
    · exact ⟨pl, by simp [playLoop, hc], hlen,
        fun x hx => ⟨(hrange x hx).1, (hrange x hx).2.1⟩, hpw⟩

/-- The construction of `idsToPlay` and `timesToPlayAt` always ends normally
(no read out of bounds, fuel sufficient); the two vectors have the same length,
every id is an image index, and the ids ascend in forward mode and descend in
reverse mode. -/
theorem buildPlaylist_ok (start end_ : Int) (reverse : Bool) (numImages : Int) :
    ∃ pl, buildPlaylist start end_ reverse numImages = .ok pl ∧
      idsToPlay start end_ reverse numImages = pl.idsToPlay ∧
      pl.idsToPlay.length = pl.timesToPlayAt.length ∧
      (∀ x ∈ pl.idsToPlay, 0 ≤ x ∧ x < numImages) ∧
      (reverse = false → pl.idsToPlay.Pairwise (fun x y => x < y)) ∧
      (reverse = true → pl.idsToPlay.Pairwise (fun x y => y < x)) := by
  cases reverse with
  | false =>
    obtain ⟨r, hr, h1, h2, h3⟩ := playLoop_inv numImages end_ 1 (Or.inl rfl)
      numImages.toNat start ⟨[], []⟩ rfl (by simp) List.Pairwise.nil
      (by intro h0 h1; simp only [passesLeft, if_true]; omega)
    have hb : buildPlaylist start end_ false numImages = .ok r := by
      simpa [buildPlaylist, loopBounds] using hr
    refine ⟨r, hb, by simp [idsToPlay, hb], h1, h2, ?_, by simp⟩
    intro _
    simpa using h3
  | true =>
    obtain ⟨r, hr, h1, h2, h3⟩ := playLoop_inv numImages start (-1) (Or.inr rfl)
      numImages.toNat (if end_ - 1 ≥ numImages then numImages - 1 else end_ - 1) ⟨[], []⟩
      rfl (by simp) List.Pairwise.nil
      (by
        intro h0 h1
        have : passesLeft numImages (-1)
            (if end_ - 1 ≥ numImages then numImages - 1 else end_ - 1) =
            (if end_ - 1 ≥ numImages then numImages - 1 else end_ - 1) + 1 := by
          simp [passesLeft]
        rw [this]
        split_ifs at h0 h1 ⊢ <;> omega)
    have hb : buildPlaylist start end_ true numImages = .ok r := by
      simpa [buildPlaylist, loopBounds] using hr
    refine ⟨r, hb, by simp [idsToPlay, hb], h1, h2, by simp, ?_⟩
    intro _
    refine h3.imp ?_
    intro a b hab
    omega

/-! ## General facts about the frame loop -/

section LoopFacts

variable (cfg : Settings) (reader : ImageFolderReader Sample) (env : Nat → FrameEnv)

/-- The call made by one iteration: none for a skipped frame; otherwise the
frame with, when inertial data is enabled, the carried samples put in front of
its own. -/
theorem iteration_call (ii : Nat) (i : Int) (e : FrameEnv) (st : LoopState Sample) :
    (iteration cfg reader ii i e st).call =
      if skipFrameOf cfg e then none
      else some
        { id := i
          imuData :=
            if cfg.setting_useIMU then
              some ((if st.imuDataSkipped then st.skippedIMUData else []) ++ reader.getIMUData i)
            else none
          gtData := reader.gtDataThere && (reader.gtDataThere && reader.gtFound i) } := by
  cases h1 : skipFrameOf cfg e <;> cases h2 : cfg.setting_useIMU <;>
    cases h3 : st.imuDataSkipped <;> simp [iteration, h1, h2, h3]

/-- The carry buffer after one iteration. -/
theorem iteration_skipped (ii : Nat) (i : Int) (e : FrameEnv) (st : LoopState Sample) :
    (iteration cfg reader ii i e st).after.skippedIMUData =
      if skipFrameOf cfg e then
        (if cfg.setting_useIMU then st.skippedIMUData ++ reader.getIMUData i
         else st.skippedIMUData)
      else if cfg.setting_useIMU && st.imuDataSkipped then []
      else st.skippedIMUData := by
  cases h1 : skipFrameOf cfg e <;> cases h2 : cfg.setting_useIMU <;>
    cases h3 : st.imuDataSkipped <;> simp [iteration, h1, h2, h3]

/-- The flag `imuDataSkipped` after one iteration. -/
theorem iteration_imuDataSkipped (ii : Nat) (i : Int) (e : FrameEnv) (st : LoopState Sample) :
    (iteration cfg reader ii i e st).after.imuDataSkipped =
      if skipFrameOf cfg e then (cfg.setting_useIMU || st.imuDataSkipped)
      else (!cfg.setting_useIMU && st.imuDataSkipped) := by
  cases h1 : skipFrameOf cfg e <;> cases h2 : cfg.setting_useIMU <;>
    cases h3 : st.imuDataSkipped <;> simp [iteration, h1, h2, h3]

/-- The samples carried forward by one iteration. -/
theorem iteration_carried (ii : Nat) (i : Int) (e : FrameEnv) (st : LoopState Sample) :
    (iteration cfg reader ii i e st).carried =
      if skipFrameOf cfg e && cfg.setting_useIMU then some (reader.getIMUData i) else none := by
  cases h1 : skipFrameOf cfg e <;> cases h2 : cfg.setting_useIMU <;>
    cases h3 : st.imuDataSkipped <;> simp [iteration, h1, h2, h3]

/-- The reset decision of one iteration (lines 275 and 277). -/
theorem iteration_didReset (ii : Nat) (i : Int) (e : FrameEnv) (st : LoopState Sample) :
    (iteration cfg reader ii i e st).didReset =
      ((e.initFailed || (st.setting_fullResetRequested || e.resetRequested)) &&
        (decide (ii < 250) || (st.setting_fullResetRequested || e.resetRequested))) :=
  rfl

/-- The estimator after one iteration: a fresh one with the old collaborators
if the iteration reset, the old one otherwise. -/
theorem iteration_fullSystem (ii : Nat) (i : Int) (e : FrameEnv) (st : LoopState Sample) :
    (iteration cfg reader ii i e st).after.fullSystem =
      if (iteration cfg reader ii i e st).didReset then
        { FullSystem.fresh with outputWrapper := st.fullSystem.outputWrapper }
      else { st.fullSystem with initFailed := e.initFailed, isLost := e.isLost } :=
  rfl

/-- The `reset()` calls of one iteration (lines 280-283). -/
theorem iteration_resetCalls (ii : Nat) (i : Int) (e : FrameEnv) (st : LoopState Sample) :
    (iteration cfg reader ii i e st).resetCalls =
      if (iteration cfg reader ii i e st).didReset then st.fullSystem.outputWrapper else [] :=
  rfl

/-- The global `setting_fullResetRequested` after one iteration (line 289). -/
theorem iteration_fullResetRequested (ii : Nat) (i : Int) (e : FrameEnv)
    (st : LoopState Sample) :
    (iteration cfg reader ii i e st).after.setting_fullResetRequested =
      if (iteration cfg reader ii i e st).didReset then false
      else (st.setting_fullResetRequested || e.resetRequested) :=
  rfl

/-- Whether one iteration leaves the loop (lines 293-303). -/
theorem iteration_exited (ii : Nat) (i : Int) (e : FrameEnv) (st : LoopState Sample) :
    (iteration cfg reader ii i e st).exited =
      ((cfg.hasViewer && e.shouldQuit) ||
        (if (iteration cfg reader ii i e st).didReset then false else e.isLost)) := by
  cases h : (iteration cfg reader ii i e st).didReset <;>
    simp only [iteration] at h ⊢ <;> simp [h, FullSystem.fresh]

theorem frameLoop_cons (i : Int) (rest : List Int) (ii : Nat) (st : LoopState Sample) :
    frameLoop cfg reader env (i :: rest) ii st =
      iteration cfg reader ii i (env ii) st ::
        (if (iteration cfg reader ii i (env ii) st).exited then []
         else frameLoop cfg reader env rest (ii + 1) (iteration cfg reader ii i (env ii) st).after) :=
  rfl

theorem frameLoop_zero (ids : List Int) (ii : Nat) (st : LoopState Sample) (s : Step Sample)
    (h : (frameLoop cfg reader env ids ii st)[0]? = some s) :
    ∃ i rest, ids = i :: rest ∧ s = iteration cfg reader ii i (env ii) st := by
  cases ids with
  | nil => simp [frameLoop] at h
  | cons i rest =>
    rw [frameLoop_cons] at h
    simp only [List.getElem?_cons_zero, Option.some.injEq] at h
    exact ⟨i, rest, rfl, h.symm⟩

theorem frameLoop_succ (ids : List Int) (ii : Nat) (st : LoopState Sample) (j : Nat)
    (s : Step Sample) (h : (frameLoop cfg reader env ids ii st)[j + 1]? = some s) :
    ∃ i rest, ids = i :: rest ∧ (iteration cfg reader ii i (env ii) st).exited = false ∧
      frameLoop cfg reader env ids ii st =
        iteration cfg reader ii i (env ii) st ::
          frameLoop cfg reader env rest (ii + 1) (iteration cfg reader ii i (env ii) st).after ∧
      (frameLoop cfg reader env rest (ii + 1) (iteration cfg reader ii i (env ii) st).after)[j]?
        = some s := by
  cases ids with
  | nil => simp [frameLoop] at h
  | cons i rest =>
    rw [frameLoop_cons] at h ⊢
    cases hex : (iteration cfg reader ii i (env ii) st).exited with
    | true => simp [hex] at h
    | false =>
      refine ⟨i, rest, rfl, hex, by simp [hex], ?_⟩
      simpa [hex] using h

/-- Every logged iteration is the loop body run at its own index on its own
starting state, and the ids are taken from `idsToPlay` in order. -/
theorem frameLoop_step (ids : List Int) (ii : Nat) (st : LoopState Sample) (j : Nat)
    (s : Step Sample) (h : (frameLoop cfg reader env ids ii st)[j]? = some s) :
    ids[j]? = some s.id ∧ s.ii = ii + j ∧
      s = iteration cfg reader (ii + j) s.id (env (ii + j)) s.before := by
  induction j generalizing ids ii st with
  | zero =>
    obtain ⟨i, rest, rfl, hs⟩ := frameLoop_zero cfg reader env ids ii st s h
    subst hs
    exact ⟨by rw [List.getElem?_cons_zero]; rfl, rfl, rfl⟩
  | succ j ih =>
    obtain ⟨i, rest, rfl, _, _, h1⟩ := frameLoop_succ cfg reader env ids ii st j s h
    obtain ⟨a, b, c⟩ := ih rest (ii + 1) _ h1
    refine ⟨by simpa using a, by omega, ?_⟩
    have e : ii + (j + 1) = ii + 1 + j := by omega
    rw [e]
    exact c

/-- The first iteration starts from the initial state; each later one starts
from the state the previous one left, and the previous one did not `break`. -/
theorem frameLoop_chain (ids : List Int) (ii : Nat) (st : LoopState Sample) (j : Nat)
    (s : Step Sample) (h : (frameLoop cfg reader env ids ii st)[j]? = some s) :
    (j = 0 → s.before = st) ∧
    (∀ k, j = k + 1 → ∃ p, (frameLoop cfg reader env ids ii st)[k]? = some p ∧
      p.exited = false ∧ s.before = p.after) := by
  induction j generalizing ids ii st with
  | zero =>
    obtain ⟨i, rest, rfl, hs⟩ := frameLoop_zero cfg reader env ids ii st s h
    subst hs
    exact ⟨fun _ => rfl, fun k hk => by omega⟩
  | succ j ih =>
    obtain ⟨i, rest, rfl, hex, heq, h1⟩ := frameLoop_succ cfg reader env ids ii st j s h
    refine ⟨fun h0 => by omega, ?_⟩
    intro k hk
    have hk : j = k := by omega
    subst hk
    obtain ⟨a, b⟩ := ih rest (ii + 1) _ h1
    cases j with
    | zero =>
      refine ⟨iteration cfg reader ii i (env ii) st, ?_, hex, a rfl⟩
      rw [heq, List.getElem?_cons_zero]
    | succ k =>
      obtain ⟨p, hp, hpe, hpa⟩ := b k rfl
      refine ⟨p, ?_, hpe, hpa⟩
      rw [heq, List.getElem?_cons_succ]
      exact hp

/-- A property of the loop variables that holds initially and is kept by the
loop body holds when every logged iteration starts and ends. -/
theorem frameLoop_invariant (P : LoopState Sample → Prop)
    (hstep : ∀ ii i st, P st → P (iteration cfg reader ii i (env ii) st).after)
    (ids : List Int) (ii : Nat) (st : LoopState Sample) (hst : P st) (j : Nat)
    (s : Step Sample) (h : (frameLoop cfg reader env ids ii st)[j]? = some s) :
    P s.before ∧ P s.after := by
  induction j generalizing ids ii st with
  | zero =>
    obtain ⟨i, rest, rfl, hs⟩ := frameLoop_zero cfg reader env ids ii st s h
    subst hs
    exact ⟨hst, hstep _ _ _ hst⟩
  | succ j ih =>
    obtain ⟨i, rest, rfl, _, _, h1⟩ := frameLoop_succ cfg reader env ids ii st j s h
    exact ih rest (ii + 1) _ (hstep _ _ _ hst) h1

/-- An iteration that leaves the loop is the last one logged. -/
theorem frameLoop_exited_last (ids : List Int) (ii : Nat) (st : LoopState Sample) (j : Nat)
    (s : Step Sample) (h : (frameLoop cfg reader env ids ii st)[j]? = some s)
    (hex : s.exited = true) : (frameLoop cfg reader env ids ii st).length = j + 1 := by
  induction j generalizing ids ii st with
  | zero =>
    obtain ⟨i, rest, rfl, hs⟩ := frameLoop_zero cfg reader env ids ii st s h
    subst hs
    rw [frameLoop_cons]
    simp [hex]
  | succ j ih =>
    obtain ⟨i, rest, rfl, _, heq, h1⟩ := frameLoop_succ cfg reader env ids ii st j s h
    rw [heq, List.length_cons, ih rest (ii + 1) _ h1]

/-- The iterations from the `k`-th on are the loop restarted at index `k` on the
state the `k`-th iteration started from. -/
theorem frameLoop_drop (ids : List Int) (ii : Nat) (st : LoopState Sample) (k : Nat)
    (s : Step Sample) (h : (frameLoop cfg reader env ids ii st)[k]? = some s) :
    (frameLoop cfg reader env ids ii st).drop k =
      frameLoop cfg reader env (ids.drop k) (ii + k) s.before := by
  induction k generalizing ids ii st with
  | zero =>
    obtain ⟨i, rest, rfl, hs⟩ := frameLoop_zero cfg reader env ids ii st s h
    subst hs
    rfl
  | succ k ih =>
    obtain ⟨i, rest, rfl, _, heq, h1⟩ := frameLoop_succ cfg reader env ids ii st k s h
    rw [heq, List.drop_succ_cons, List.drop_succ_cons, ih rest (ii + 1) _ h1]
    have e : ii + (k + 1) = ii + 1 + k := by omega
    rw [e]

/-- The ids handed to `addActiveFrame` are taken from `idsToPlay` without
changing their order. -/
theorem callIds_sublist (ids : List Int) (ii : Nat) (st : LoopState Sample) :
    ((callsOf (frameLoop cfg reader env ids ii st)).map (fun c => c.id)).Sublist ids := by
  induction ids generalizing ii st with
  | nil => simp [frameLoop, callsOf]
  | cons i rest ih =>
    rw [frameLoop_cons]
    have htail : ((callsOf (if (iteration cfg reader ii i (env ii) st).exited then []
        else frameLoop cfg reader env rest (ii + 1)
          (iteration cfg reader ii i (env ii) st).after)).map (fun c => c.id)).Sublist rest := by
      split_ifs
      · simp [callsOf]
      · exact ih _ _
    have hcall : ∀ c, (iteration cfg reader ii i (env ii) st).call = some c → c.id = i := by
      intro c hc
      rw [iteration_call] at hc
      by_cases hsk : skipFrameOf cfg (env ii) = true
      · simp [hsk] at hc
      · simp only [hsk, Bool.false_eq_true, if_false, Option.some.injEq] at hc
        rw [← hc]
    unfold callsOf at htail ⊢
    rw [List.filterMap_cons]
    cases hc : (iteration cfg reader ii i (env ii) st).call with
    | none => exact List.Sublist.cons _ htail
    | some c =>
      simp only [List.map_cons, hcall c hc]
      exact List.Sublist.cons₂ _ htail

end LoopFacts

/-! ## Inertial samples: conservation and carry-forward -/

section Samples

variable (cfg : Settings) (reader : ImageFolderReader Sample) (env : Nat → FrameEnv)

theorem carryInv_initial : CarryInv (initialState cfg : LoopState Sample) := by
  intro _; rfl

theorem carryInv_iteration (ii : Nat) (i : Int) (e : FrameEnv) (st : LoopState Sample)
    (hinv : CarryInv st) : CarryInv (iteration cfg reader ii i e st).after := by
  unfold CarryInv at hinv ⊢
  rw [iteration_imuDataSkipped, iteration_skipped]
  cases h1 : skipFrameOf cfg e <;> cases h2 : cfg.setting_useIMU <;>
    cases h3 : st.imuDataSkipped <;> simp [h3] at hinv ⊢ <;> simp [hinv]

theorem batchesOf_cons (s : Step Sample) (l : List (Step Sample)) :
    batchesOf (s :: l) = batchesOf [s] ++ batchesOf l := by
  cases h : s.call <;> simp [batchesOf, callsOf, List.filterMap_cons, h]

theorem samplesRead_cons (i : Int) (l : List Int) :
    samplesRead reader (i :: l) = reader.getIMUData i ++ samplesRead reader l := by
  simp [samplesRead]

/-- One iteration conserves the samples: what it hands over plus what it leaves
in the carry buffer is what was in the buffer plus what it read. -/
theorem iteration_conserves (hIMU : cfg.setting_useIMU = true) (ii : Nat) (i : Int)
    (e : FrameEnv) (st : LoopState Sample) (hinv : CarryInv st) :
    batchesOf [iteration cfg reader ii i e st] ++
        (iteration cfg reader ii i e st).after.skippedIMUData =
      st.skippedIMUData ++ reader.getIMUData i := by
  unfold CarryInv at hinv
  simp only [batchesOf, callsOf, List.filterMap_cons, List.filterMap_nil]
  rw [iteration_call, iteration_skipped]
  cases h1 : skipFrameOf cfg e <;> cases h3 : st.imuDataSkipped <;>
    simp [hIMU, h3] at hinv ⊢
  all_goals simp [hinv]

theorem frameLoop_conserves (hIMU : cfg.setting_useIMU = true) (ids : List Int) (ii : Nat)
    (st : LoopState Sample) (hinv : CarryInv st) (j : Nat) (s : Step Sample)
    (h : (frameLoop cfg reader env ids ii st)[j]? = some s) :
    batchesOf ((frameLoop cfg reader env ids ii st).take (j + 1)) ++ s.after.skippedIMUData =
      st.skippedIMUData ++ samplesRead reader (ids.take (j + 1)) := by
  induction j generalizing ids ii st with
  | zero =>
    obtain ⟨i, rest, rfl, hs⟩ := frameLoop_zero cfg reader env ids ii st s h
    subst hs
    rw [frameLoop_cons]
    simp only [zero_add, List.take_succ_cons, List.take_zero]
    rw [iteration_conserves cfg reader hIMU ii i (env ii) st hinv]
    simp [samplesRead]
  | succ j ih =>
    obtain ⟨i, rest, rfl, _, heq, h1⟩ := frameLoop_succ cfg reader env ids ii st j s h
    have hnext := ih rest (ii + 1) _ (carryInv_iteration cfg reader ii i (env ii) st hinv) h1
    have hone := iteration_conserves cfg reader hIMU ii i (env ii) st hinv
    rw [heq, List.take_succ_cons, List.take_succ_cons, batchesOf_cons, samplesRead_cons,
      List.append_assoc, hnext, ← List.append_assoc, hone, List.append_assoc]

end Samples

/-- C8: with inertial data enabled, at the end of every iteration of the frame
loop the batches handed to `addActiveFrame` so far, concatenated in call order
and followed by the contents of `skippedIMUData`, are exactly the batches read
from the reader so far, concatenated in frame order. -/
theorem imu_samples_conserved (cfg : Settings) (reader : ImageFolderReader Sample)
    (env : Nat → FrameEnv) (hIMU : cfg.setting_useIMU = true) (j : Nat) (s : Step Sample)
    (h : (runSteps cfg reader env)[j]? = some s) :
    batchesOf ((runSteps cfg reader env).take (j + 1)) ++ s.after.skippedIMUData =
      samplesRead reader
        ((idsToPlay cfg.start cfg.end_ cfg.reverse reader.numImages).take (j + 1)) := by
  have := frameLoop_conserves cfg reader env hIMU _ 0 _ (carryInv_initial cfg) j s h
  simpa [initialState] using this

section CarryForward

variable (cfg : Settings) (reader : ImageFolderReader Sample) (env : Nat → FrameEnv)

/-- After `m` skipped frames the carry buffer holds what it held before followed
by the samples read for those frames, in frame order. -/
theorem frameLoop_skipped_block (hIMU : cfg.setting_useIMU = true) (m : Nat) :
    ∀ (ids : List Int) (ii : Nat) (st : LoopState Sample) (s : Step Sample),
      (∀ j, j < m → skipFrameOf cfg (env (ii + j)) = true) →
      (frameLoop cfg reader env ids ii st)[m]? = some s →
      s.before.skippedIMUData = st.skippedIMUData ++ samplesRead reader (ids.take m) ∧
      (st.imuDataSkipped = true ∨ 1 ≤ m → s.before.imuDataSkipped = true) := by
  induction m with
  | zero =>
    intro ids ii st s _ h
    obtain ⟨i, rest, rfl, hs⟩ := frameLoop_zero cfg reader env ids ii st s h
    subst hs
    refine ⟨by simp [samplesRead, iteration], ?_⟩
    intro hor
    rcases hor with hf | hm
    · simpa [iteration] using hf
    · omega
  | succ m ih =>
    intro ids ii st s hskip h
    obtain ⟨i, rest, rfl, _, _, h1⟩ := frameLoop_succ cfg reader env ids ii st m s h
    have h0 : skipFrameOf cfg (env ii) = true := by simpa using hskip 0 (by omega)
    obtain ⟨a, b⟩ := ih rest (ii + 1) _ s
      (by
        intro j hj
        have := hskip (j + 1) (by omega)
        have e : ii + (j + 1) = ii + 1 + j := by omega
        rwa [e] at this)
      h1
    rw [iteration_skipped, iteration_imuDataSkipped] at *
    simp only [h0, hIMU, if_true, Bool.true_or] at a b
    refine ⟨?_, fun _ => b (Or.inl trivial)⟩
    rw [a, List.take_succ_cons, samplesRead_cons, List.append_assoc]

end CarryForward

/-- C1: with inertial data enabled, if the `m ≥ 1` frames at loop indices
`k, ..., k + m - 1` are skipped (the frame before them, if any, was not) and the
frame at index `k + m` is reached and not skipped, then that frame is handed to
`addActiveFrame` with the batch made of the samples read for the skipped frames,
in frame order, followed by its own samples, and `skippedIMUData` is empty
afterwards. -/
theorem skipped_samples_prepended (cfg : Settings) (reader : ImageFolderReader Sample)
    (env : Nat → FrameEnv) (hIMU : cfg.setting_useIMU = true) (k m : Nat) (hm : 1 ≤ m)
    (hprev : k = 0 ∨ skipFrameOf cfg (env (k - 1)) = false)
    (hskip : ∀ j, k ≤ j → j < k + m → skipFrameOf cfg (env j) = true)
    (hnext : skipFrameOf cfg (env (k + m)) = false)
    (s : Step Sample) (h : (runSteps cfg reader env)[k + m]? = some s) :
    ∃ c, s.call = some c ∧ c.id = s.id ∧
      c.imuData = some
        (samplesRead reader
            (((idsToPlay cfg.start cfg.end_ cfg.reverse reader.numImages).drop k).take m) ++
          reader.getIMUData s.id) ∧
      s.after.skippedIMUData = [] ∧ s.after.imuDataSkipped = false := by
  unfold runSteps at h
  -- the iteration at index `k`
  have hk : ∃ sk, (frameLoop cfg reader env
      (idsToPlay cfg.start cfg.end_ cfg.reverse reader.numImages) 0 (initialState cfg))[k]?
        = some sk := by
    have hlt : k + m < (frameLoop cfg reader env
        (idsToPlay cfg.start cfg.end_ cfg.reverse reader.numImages) 0
          (initialState cfg)).length := by
      rcases List.getElem?_eq_some.mp h with ⟨hl, _⟩; exact hl
    exact ⟨_, List.getElem?_eq_getElem (by omega)⟩
  obtain ⟨sk, hsk⟩ := hk
  -- the carry buffer is empty when the block starts
  have hempty : sk.before.skippedIMUData = [] := by
    obtain ⟨c0, c1⟩ := frameLoop_chain cfg reader env _ 0 _ k sk hsk
    rcases hprev with h0 | hp
    · rw [c0 h0]; rfl
    · cases k with
      | zero => rw [c0 rfl]; rfl
      | succ k' =>
        obtain ⟨p, hp1, _, hp3⟩ := c1 k' rfl
        obtain ⟨_, _, hpe⟩ := frameLoop_step cfg reader env _ 0 _ k' p hp1
        have hinv := (frameLoop_invariant cfg reader env CarryInv
          (fun ii i st hst => carryInv_iteration cfg reader ii i (env ii) st hst)
          _ 0 _ (carryInv_initial cfg) k' p hp1).1
        have hp' : skipFrameOf cfg (env (0 + k')) = false := by simpa using hp
        rw [hp3, hpe, iteration_skipped]
        simp only [hp', hIMU, Bool.false_eq_true, if_false, Bool.true_and]
        cases hf : p.before.imuDataSkipped with
        | true => simp
        | false => simpa using hinv hf
  -- restart the loop at index `k`
  have hdrop := frameLoop_drop cfg reader env _ 0 _ k sk hsk
  have hm' : (frameLoop cfg reader env
      ((idsToPlay cfg.start cfg.end_ cfg.reverse reader.numImages).drop k) (0 + k)
        sk.before)[m]? = some s := by
    rw [← hdrop, List.getElem?_drop]
    exact h
  obtain ⟨hb, hflag⟩ := frameLoop_skipped_block cfg reader env hIMU m _ (0 + k) _ s
    (by
      intro j hj
      have := hskip (k + j) (by omega) (by omega)
      simpa using this)
    hm'
  have hflag' := hflag (Or.inr hm)
  obtain ⟨_, _, hs⟩ := frameLoop_step cfg reader env _ 0 _ (k + m) s h
  have hnext' : skipFrameOf cfg (env (0 + (k + m))) = false := by simpa using hnext
  have hcall := congrArg Step.call hs
  have hsk' := congrArg (fun t => t.after.skippedIMUData) hs
  have hfl' := congrArg (fun t => t.after.imuDataSkipped) hs
  simp only [] at hsk' hfl'
  rw [iteration_call] at hcall
  rw [iteration_skipped] at hsk'
  rw [iteration_imuDataSkipped] at hfl'
  simp only [hnext', hIMU, hflag', Bool.false_eq_true, if_false, if_true, Bool.and_self]
    at hcall hsk' hfl'
  refine ⟨_, hcall, rfl, ?_, hsk', by simpa using hfl'⟩
  simp only [hb, hempty, List.nil_append]

/-! ## The driver contract -/

/-- The iterations logged by a completed `run` are those of `runSteps`. -/
theorem run_ok_steps (cfg : Settings) (reader : ImageFolderReader Sample)
    (env : Nat → FrameEnv) (r : RunResult Sample) (h : run cfg reader env = .ok r) :
    r.steps = runSteps cfg reader env := by
  unfold run at h
  split_ifs at h
  cases hb : buildPlaylist cfg.start cfg.end_ cfg.reverse reader.numImages with
  | error e => simp [hb] at h
  | ok pl =>
    simp only [hb] at h
    cases hn : numFramesProcessed pl.idsToPlay with
    | error e => simp [hn] at h
    | ok n =>
      simp only [hn, Except.ok.injEq] at h
      rw [← h]
      simp [runSteps, idsToPlay, hb]

/-- When images are preloaded, `preloadedImages` is as long as `idsToPlay`, so
the read `preloadedImages[ii]` of line 208 is in range. -/
theorem preloadedImages_length (cfg : Settings) (numImages : Int) (ids : List Int)
    (h : preloadInEffect cfg numImages = true) :
    (preloadedImages cfg numImages ids).length = ids.length := by
  simp [preloadedImages, h]

/-- C2 (amended): the frame ids handed to `addActiveFrame` over a whole run are
strictly increasing in forward mode and strictly decreasing in reverse mode,
across skipped frames and across full resets; in both modes no id is handed over
twice. -/
theorem call_ids_strictly_monotone (cfg : Settings) (reader : ImageFolderReader Sample)
    (env : Nat → FrameEnv) :
    ((callsOf (runSteps cfg reader env)).map (fun c => c.id)).Pairwise
        (fun x y => if cfg.reverse then y < x else x < y) ∧
    ((callsOf (runSteps cfg reader env)).map (fun c => c.id)).Nodup := by
  obtain ⟨pl, _, hids, _, _, hfwd, hrev⟩ :=
    buildPlaylist_ok cfg.start cfg.end_ cfg.reverse reader.numImages
  have hsub := callIds_sublist cfg reader env
    (idsToPlay cfg.start cfg.end_ cfg.reverse reader.numImages) 0 (initialState cfg)
  have hpw : ((callsOf (runSteps cfg reader env)).map (fun c => c.id)).Pairwise
      (fun x y => if cfg.reverse then y < x else x < y) := by
    refine List.Pairwise.sublist hsub ?_
    rw [hids]
    cases hr : cfg.reverse with
    | false => simpa using hfwd hr
    | true => simpa using hrev hr
  refine ⟨hpw, hpw.imp ?_⟩
  intro a b hab
  split_ifs at hab <;> omega

/-- C2 fails as stated: a reverse run over images `[0, 3)` hands over the ids
2, 1, which are not increasing. -/
theorem reverse_run_ids_not_increasing :
    runCallIds cfgReverse readerFive envQuiet = .ok [2, 1] ∧
    ¬ ((callsOf (runSteps cfgReverse readerFive envQuiet)).map (fun c => c.id)).Pairwise
        (fun x y => x < y) := by
  decide

/-- C3 (amended): if the estimator in use has `isLost` set after the frame was
handled and the iteration performs no full reset, the loop is left in that
iteration: it is the last one, and no later frame is handed to
`addActiveFrame`. -/
theorem lost_without_reset_is_terminal (cfg : Settings) (reader : ImageFolderReader Sample)
    (env : Nat → FrameEnv) (j : Nat) (s : Step Sample)
    (h : (runSteps cfg reader env)[j]? = some s)
    (hlost : s.isLost = true) (hnr : s.didReset = false) :
    s.exited = true ∧ (runSteps cfg reader env).length = j + 1 ∧
      callsOf ((runSteps cfg reader env).drop (j + 1)) = [] := by
  obtain ⟨_, _, hs⟩ := frameLoop_step cfg reader env _ 0 _ j s h
  have hex : s.exited = true := by
    have e1 := congrArg Step.exited hs
    have e2 : s.isLost = (env (0 + j)).isLost := by rw [hs]; rfl
    have e3 := congrArg Step.didReset hs
    rw [iteration_exited, ← e3, hnr, ← e2, hlost] at e1
    simpa using e1
  have hlen := frameLoop_exited_last cfg reader env _ 0 _ j s h hex
  refine ⟨hex, hlen, ?_⟩
  rw [List.drop_of_length_le (by unfold runSteps; omega)]
  rfl

/-- Instance of C3 (amended): the estimator is lost after the first frame and no
reset is requested. -/
theorem lost_without_reset_is_terminal_witness :
    ∃ s, (runSteps cfgForward readerFive envLost)[0]? = some s ∧
      s.isLost = true ∧ s.didReset = false ∧
      s.exited = true ∧ (runSteps cfgForward readerFive envLost).length = 0 + 1 ∧
      callsOf ((runSteps cfgForward readerFive envLost).drop (0 + 1)) = [] :=
  ⟨_, rfl, rfl, rfl,
    lost_without_reset_is_terminal cfgForward readerFive envLost 0 _ rfl rfl rfl⟩

/-- C3 fails as stated: when the estimator is lost after the first frame while a
full reset is requested, the driver replaces the estimator and goes on handing
frames 1 and 2 to `addActiveFrame`. -/
theorem lost_then_reset_continues :
    (runSteps cfgForward readerFive envLostAndReset).map
        (fun s => (s.call.map (fun c => c.id), s.isLost, s.didReset, s.exited)) =
      [(some 0, true, true, false), (some 1, false, false, false),
        (some 2, false, false, false)] ∧
    runCallIds cfgForward readerFive envLostAndReset = .ok [0, 1, 2] := by
  decide

/-- The collaborators registered by `run` are pairwise distinct. -/
theorem initial_outputWrapper_nodup (cfg : Settings) :
    (initialState cfg : LoopState Sample).fullSystem.outputWrapper.Nodup := by
  cases h1 : cfg.hasViewer <;> cases h2 : cfg.useSampleOutput <;>
    simp [initialState, FullSystem.fresh, h1, h2]

/-- C4: whenever an iteration performs a full reset, the fresh estimator's
`outputWrapper` list is exactly the list of the discarded estimator, the
`reset()` calls go to exactly that list, each collaborator of the list receiving
one call and nobody else any, and `setting_fullResetRequested` is false
afterwards. -/
theorem full_reset_preserves_collaborators (cfg : Settings)
    (reader : ImageFolderReader Sample) (env : Nat → FrameEnv) (j : Nat) (s : Step Sample)
    (h : (runSteps cfg reader env)[j]? = some s) (hr : s.didReset = true) :
    s.after.fullSystem.outputWrapper = s.before.fullSystem.outputWrapper ∧
    s.resetCalls = s.before.fullSystem.outputWrapper ∧
    (∀ w, w ∈ s.before.fullSystem.outputWrapper → s.resetCalls.count w = 1) ∧
    (∀ w, w ∉ s.before.fullSystem.outputWrapper → s.resetCalls.count w = 0) ∧
    s.after.setting_fullResetRequested = false := by
  obtain ⟨_, _, hs⟩ := frameLoop_step cfg reader env _ 0 _ j s h
  have hnd := (frameLoop_invariant cfg reader env
    (fun st => st.fullSystem.outputWrapper.Nodup)
    (fun ii i st hst => by
      show (iteration cfg reader ii i (env ii) st).after.fullSystem.outputWrapper.Nodup
      rw [iteration_fullSystem]
      split_ifs <;> exact hst)
    _ 0 _ (initial_outputWrapper_nodup cfg) j s h).1
  have e3 := congrArg Step.didReset hs
  rw [hr] at e3
  have hcalls : s.resetCalls = s.before.fullSystem.outputWrapper := by
    have := congrArg Step.resetCalls hs
    rw [iteration_resetCalls, ← e3] at this
    simpa using this
  have hwr : s.after.fullSystem.outputWrapper = s.before.fullSystem.outputWrapper := by
    have := congrArg (fun t => t.after.fullSystem) hs
    simp only [] at this
    rw [iteration_fullSystem, ← e3] at this
    rw [this]
    simp
  have hflag : s.after.setting_fullResetRequested = false := by
    have := congrArg (fun t => t.after.setting_fullResetRequested) hs
    simp only [] at this
    rw [iteration_fullResetRequested, ← e3] at this
    simpa using this
  refine ⟨hwr, hcalls, ?_, ?_, hflag⟩
  · intro w hw
    rw [hcalls]
    exact List.count_eq_one_of_mem hnd hw
  · intro w hw
    rw [hcalls]
    exact List.count_eq_zero_of_not_mem hw

/-- Instance of C4: the reset of the first iteration of a run in which a full
reset is requested at once; the viewer and the sample output wrapper are both
kept and both reset. -/
theorem full_reset_preserves_collaborators_witness :
    ((runSteps cfgForward readerFive envLostAndReset)[0]?).map (fun s => s.didReset)
      = some true ∧
    ((runSteps cfgForward readerFive envLostAndReset)[0]?).map
        (fun s => (s.before.fullSystem.outputWrapper, s.resetCalls,
          s.after.fullSystem.outputWrapper, s.after.setting_fullResetRequested)) =
      some ([Output3DWrapper.viewer, Output3DWrapper.sampleOutput],
        [Output3DWrapper.viewer, Output3DWrapper.sampleOutput],
        [Output3DWrapper.viewer, Output3DWrapper.sampleOutput], false) ∧
    (iteration cfgForward readerFive 0 0 (envLostAndReset 0)
        (initialState cfgForward)).resetCalls.count Output3DWrapper.viewer = 1 :=
  ⟨by decide, by decide,
    (full_reset_preserves_collaborators cfgForward readerFive envLostAndReset 0
      (iteration cfgForward readerFive 0 0 (envLostAndReset 0) (initialState cfgForward))
      (by decide) (by decide)).2.2.1 Output3DWrapper.viewer (by decide)⟩

/-- C5 (amended): an iteration replaces the estimator by a fresh one exactly when
`setting_fullResetRequested` is set, or `initFailed` is set and the loop index
is below 250; the fresh estimator has the collaborators of the old one and is
the one the next iteration, if any, starts with. -/
theorem reset_exactly_when_requested_or_early_failure (cfg : Settings)
    (reader : ImageFolderReader Sample) (env : Nat → FrameEnv) (j : Nat) (s : Step Sample)
    (h : (runSteps cfg reader env)[j]? = some s) :
    (s.didReset = true ↔
      (s.fullResetRequested = true ∨ (s.initFailed = true ∧ j < 250))) ∧
    (s.didReset = true →
      s.after.fullSystem =
        { FullSystem.fresh with outputWrapper := s.before.fullSystem.outputWrapper } ∧
      ∀ t, (runSteps cfg reader env)[j + 1]? = some t →
        t.before.fullSystem =
          { FullSystem.fresh with outputWrapper := s.before.fullSystem.outputWrapper }) := by
  obtain ⟨_, _, hs⟩ := frameLoop_step cfg reader env _ 0 _ j s h
  have e1 := congrArg Step.didReset hs
  have e2 : s.fullResetRequested =
      (s.before.setting_fullResetRequested || (env (0 + j)).resetRequested) := by
    rw [hs]; rfl
  have e3 : s.initFailed = (env (0 + j)).initFailed := by rw [hs]; rfl
  rw [iteration_didReset, ← e2, ← e3] at e1
  have hfs := congrArg (fun t => t.after.fullSystem) hs
  simp only [] at hfs
  rw [iteration_fullSystem, ← hs] at hfs
  refine ⟨?_, ?_⟩
  · rw [e1]
    cases s.fullResetRequested <;> cases s.initFailed <;> simp
  · intro hr
    have hafter : s.after.fullSystem =
        { FullSystem.fresh with outputWrapper := s.before.fullSystem.outputWrapper } := by
      rw [hfs, hr]; rfl
    refine ⟨hafter, ?_⟩
    intro t ht
    obtain ⟨_, hc⟩ := frameLoop_chain cfg reader env _ 0 _ (j + 1) t ht
    obtain ⟨p, hp, _, hpa⟩ := hc j rfl
    have hps : p = s := by
      have : some p = some s := by rw [← hp]; exact h
      exact Option.some.inj this
    rw [hpa, hps, hafter]

/-- Instance of C5 (amended): a reset requested during the first iteration. -/
theorem reset_exactly_when_requested_or_early_failure_witness :
    ((iteration cfgForward readerFive 0 0 (envLostAndReset 0)
        (initialState cfgForward)).didReset = true ↔
      ((iteration cfgForward readerFive 0 0 (envLostAndReset 0)
          (initialState cfgForward)).fullResetRequested = true ∨
        ((iteration cfgForward readerFive 0 0 (envLostAndReset 0)
          (initialState cfgForward)).initFailed = true ∧ 0 < 250))) ∧
    (iteration cfgForward readerFive 0 0 (envLostAndReset 0)
        (initialState cfgForward)).didReset = true :=
  ⟨(reset_exactly_when_requested_or_early_failure cfgForward readerFive envLostAndReset 0
      (iteration cfgForward readerFive 0 0 (envLostAndReset 0) (initialState cfgForward))
      (by decide)).1, by decide⟩

set_option maxRecDepth 1000000 in
/-- C5 fails as stated: when `initFailed` is set after the frame at loop index
250 and no reset is requested, the estimator is not replaced, and the frame at
index 251 is fed to the same estimator. -/
theorem late_init_failure_not_reset :
    ((runSteps cfgLong readerLong envInitFailedLate).drop 250).map
        (fun s => (s.ii, s.call.map (fun c => c.id),
          [s.initFailed, s.fullResetRequested, s.didReset, s.after.fullSystem.initFailed])) =
      [(250, some 250, [true, false, false, true]),
        (251, some 251, [true, false, false, true])] := by
  decide

/-- C6 (amended): the frames whose inertial samples are withheld and carried
forward are exactly the skipped frames of a run with inertial data; such a frame
is not handed to `addActiveFrame` at all, and its samples are appended to
`skippedIMUData`.  Every frame that is not skipped is handed to
`addActiveFrame`, with an inertial batch whenever inertial data is enabled. -/
theorem carried_frames_are_skipped (cfg : Settings) (reader : ImageFolderReader Sample)
    (env : Nat → FrameEnv) (j : Nat) (s : Step Sample)
    (h : (runSteps cfg reader env)[j]? = some s) :
    (s.carried.isSome = true ↔ (s.skipFrame = true ∧ cfg.setting_useIMU = true)) ∧
    (s.carried.isSome = true → s.call = none) ∧
    (s.call.isSome = true ↔ s.skipFrame = false) ∧
    (cfg.setting_useIMU = true → ∀ c, s.call = some c → c.imuData.isSome = true) ∧
    (∀ d, s.carried = some d →
      d = reader.getIMUData s.id ∧
      s.after.skippedIMUData = s.before.skippedIMUData ++ d) := by
  obtain ⟨_, _, hs⟩ := frameLoop_step cfg reader env _ 0 _ j s h
  have hsk : s.skipFrame = skipFrameOf cfg (env (0 + j)) := by rw [hs]; rfl
  have hcar := congrArg Step.carried hs
  have hcall := congrArg Step.call hs
  have hbuf := congrArg (fun t => t.after.skippedIMUData) hs
  simp only [] at hbuf
  rw [iteration_carried, ← hsk] at hcar
  rw [iteration_call, ← hsk] at hcall
  rw [iteration_skipped, ← hsk] at hbuf
  rw [hcar, hcall, hbuf]
  cases s.skipFrame <;> cases cfg.setting_useIMU <;> simp

/-- Instance of C6 (amended): the first frame of a run whose first two frames are
late is carried forward and not processed. -/
theorem carried_frames_are_skipped_witness :
    (iteration cfgForward readerFive 0 0 (envLateStart 0) (initialState cfgForward)).carried
      = some [0, 1] ∧
    (iteration cfgForward readerFive 0 0 (envLateStart 0) (initialState cfgForward)).call
      = none :=
  ⟨by decide,
    (carried_frames_are_skipped cfgForward readerFive envLateStart 0
      (iteration cfgForward readerFive 0 0 (envLateStart 0) (initialState cfgForward))
      (by decide)).2.1 (by decide)⟩

/-- C6 fails as stated: in a run whose first two frames are late, the frames 0
and 1 have their samples carried forward and are not handed to `addActiveFrame`;
only frame 2 is, with all the samples. -/
theorem carried_frame_not_processed :
    (runSteps cfgForward readerFive envLateStart).map (fun s => (s.id, s.carried, s.call)) =
      [(0, some [0, 1], none), (1, some [10, 11], none),
        (2, none, some ⟨2, some [0, 1, 10, 11, 20, 21], false⟩)] := by
  decide

/-- Instance of C1: frames 0 and 1 are skipped, frame 2 is not; it is handed over
with the samples of frames 0, 1 and 2 in that order. -/
theorem skipped_samples_prepended_witness :
    cfgForward.setting_useIMU = true ∧
    (iteration cfgForward readerFive 2 2 (envLateStart 2)
        (iteration cfgForward readerFive 1 1 (envLateStart 1)
          (iteration cfgForward readerFive 0 0 (envLateStart 0)
            (initialState cfgForward)).after).after).call.bind (fun c => c.imuData) =
      some [0, 1, 10, 11, 20, 21] :=
  ⟨rfl, by
    obtain ⟨c, h1, _, h3, _⟩ :=
      skipped_samples_prepended cfgForward readerFive envLateStart rfl 0 2 (by decide)
        (Or.inl rfl) (by intro j _ hj; interval_cases j <;> rfl) (by decide)
        (iteration cfgForward readerFive 2 2 (envLateStart 2)
          (iteration cfgForward readerFive 1 1 (envLateStart 1)
            (iteration cfgForward readerFive 0 0 (envLateStart 0)
              (initialState cfgForward)).after).after)
        (by decide)
    rw [h1]
    show c.imuData = _
    rw [h3]
    decide⟩

/-- Instance of C8: after the second iteration of a run whose first two frames
are late, nothing was handed over and the carry buffer holds the samples of
frames 0 and 1. -/
theorem imu_samples_conserved_witness :
    cfgForward.setting_useIMU = true ∧
    batchesOf ((runSteps cfgForward readerFive envLateStart).take (1 + 1)) ++
        [0, 1, 10, 11] =
      samplesRead readerFive
        ((idsToPlay cfgForward.start cfgForward.end_ cfgForward.reverse
          readerFive.numImages).take (1 + 1)) :=
  ⟨rfl, imu_samples_conserved cfgForward readerFive envLateStart rfl 1
    (iteration cfgForward readerFive 1 1 (envLateStart 1)
      (iteration cfgForward readerFive 0 0 (envLateStart 0) (initialState cfgForward)).after)
    (by decide)⟩

/-- C9 at `start = 0`, `end = 3` with five images: forward playback lists the ids
0, 1, 2 but reverse playback lists only 2, 1; image `start` is never played in
reverse. -/
theorem reverse_playlist_misses_start :
    idsToPlay 0 3 false 5 = [0, 1, 2] ∧ idsToPlay 0 3 true 5 = [2, 1] ∧
      idsToPlay 0 3 true 5 ≠ (idsToPlay 0 3 false 5).reverse := by
  decide

/-- C10 at `start = end = 0`, and at `start = 7` with the default `end` and five
images: `idsToPlay` is empty, so the reads `idsToPlay[0]` and `idsToPlay.back()`
of the final statistics are out of bounds. -/
theorem empty_playlist_read_out_of_bounds :
    idsToPlay 0 0 false 5 = [] ∧
    idsToPlay 7 100000 false 5 = [] ∧
    vecAt (idsToPlay 0 0 false 5) 0 = .error .outOfBounds ∧
    vecBack (idsToPlay 0 0 false 5) = .error .outOfBounds ∧
    run cfgEmpty readerFive envQuiet = .error .outOfBounds := by
  decide

theorem getDeepCopy_eq (hp : Heap) (this : Nat) (junk : Nat → Nat) (o : ImageAndExposure)
    (px : List Nat) (ho : hp.images[this]? = some o) (hpx : hp.floats[o.image]? = some px)
    (hw : 0 ≤ o.w) (hh : 0 ≤ o.h) (hrep : o.w * o.h < 2 ^ 31)
    (hlen : px.length = (o.w * o.h).toNat) :
    getDeepCopy hp this junk =
      some ({ images := hp.images ++ [{ o with image := hp.floats.length }]
              floats := hp.floats ++ [px] }, hp.images.length) := by
  have hthis : this < hp.images.length := by
    rcases List.getElem?_eq_some.mp ho with ⟨h, _⟩; exact h
  have harr : o.image < hp.floats.length := by
    rcases List.getElem?_eq_some.mp hpx with ⟨h, _⟩; exact h
  have hmul := mul_nonneg hw hh
  have h1 : ¬ o.w * o.h < 0 := by omega
  have h2 : ¬ (2147483648 : Int) ≤ o.w * o.h := by omega
  have hne : hp.floats.length ≠ o.image := by omega
  have hne2 : hp.images.length ≠ this := by omega
  have hcast : o.w * o.h ≤ (px.length : Int) := by rw [hlen]; omega
  have htake : List.take (o.w * o.h).toNat px = px := by
    rw [← hlen]; exact List.take_length px
  simp [getDeepCopy, newImageAndExposure, memcpy, ho, hthis, harr, hpx, h1, h2,
    List.getElem?_append_left, List.getElem?_append_right, List.getElem?_set,
    sizeofFloat, hne, hne2, hcast, htake]

/-- C7: on a well-formed image (`w, h ≥ 0`, `w * h` representable, an array of
`w * h` pixels) `getDeepCopy` returns a new image whose `w`, `h`, `timestamp`
and `exposure_time` equal the original's and whose `w * h` pixels equal the
original's pixel by pixel; the original object, its pixels and every other
object and array of the free store are left unchanged. -/
theorem getDeepCopy_equal_and_preserving (hp : Heap) (this : Nat) (junk : Nat → Nat)
    (hwf : WellFormedImage hp this) :
    ∃ hp1 cp o c px, getDeepCopy hp this junk = some (hp1, cp) ∧
      hp.images[this]? = some o ∧ hp1.images[cp]? = some c ∧
      c.w = o.w ∧ c.h = o.h ∧ c.timestamp = o.timestamp ∧
      c.exposure_time = o.exposure_time ∧
      pixelsOf hp this = some px ∧ px.length = (o.w * o.h).toNat ∧
      pixelsOf hp1 cp = some px ∧
      cp ≠ this ∧ c.image ≠ o.image ∧
      hp1.images[this]? = some o ∧ pixelsOf hp1 this = some px ∧
      (∀ a, a < hp.images.length → hp1.images[a]? = hp.images[a]?) ∧
      (∀ a, a < hp.floats.length → hp1.floats[a]? = hp.floats[a]?) := by
  obtain ⟨o, px, ho, hpx, hw, hh, hrep, hlen⟩ := hwf
  have hthis : this < hp.images.length := by
    rcases List.getElem?_eq_some.mp ho with ⟨h, _⟩; exact h
  have harr : o.image < hp.floats.length := by
    rcases List.getElem?_eq_some.mp hpx with ⟨h, _⟩; exact h
  have htake : List.take (o.w * o.h).toNat px = px := by
    rw [← hlen]; exact List.take_length px
  refine ⟨_, _, o, { o with image := hp.floats.length }, px,
    getDeepCopy_eq hp this junk o px ho hpx hw hh hrep hlen, ho, ?_, rfl, rfl, rfl, rfl,
    ?_, hlen, ?_, ?_, ?_, ?_, ?_, ?_, ?_⟩
  · simp
  · simp [pixelsOf, ho, hpx, htake]
  · simp [pixelsOf, htake]
  · omega
  · simp only; omega
  · simp [List.getElem?_append_left hthis, ho]
  · simp [pixelsOf, List.getElem?_append_left hthis, ho, List.getElem?_append_left harr, hpx,
      htake]
  · intro a ha
    simp [List.getElem?_append_left ha]
  · intro a ha
    simp [List.getElem?_append_left ha]

/-- Instance of C7 on a 2 x 1 image stored after another array. -/
theorem getDeepCopy_equal_and_preserving_witness :
    WellFormedImage ⟨[⟨1, 2, 1, 77, 5⟩], [[3], [10, 20]]⟩ 0 ∧
    ∃ hp1 cp o c px,
      getDeepCopy ⟨[⟨1, 2, 1, 77, 5⟩], [[3], [10, 20]]⟩ 0 (fun _ => 99) = some (hp1, cp) ∧
      (⟨[⟨1, 2, 1, 77, 5⟩], [[3], [10, 20]]⟩ : Heap).images[0]? = some o ∧
      hp1.images[cp]? = some c ∧
      c.w = o.w ∧ c.h = o.h ∧ c.timestamp = o.timestamp ∧
      c.exposure_time = o.exposure_time ∧
      pixelsOf ⟨[⟨1, 2, 1, 77, 5⟩], [[3], [10, 20]]⟩ 0 = some px ∧
      px.length = (o.w * o.h).toNat ∧
      pixelsOf hp1 cp = some px ∧
      cp ≠ 0 ∧ c.image ≠ o.image ∧
      hp1.images[0]? = some o ∧ pixelsOf hp1 0 = some px ∧
      (∀ a, a < (⟨[⟨1, 2, 1, 77, 5⟩], [[3], [10, 20]]⟩ : Heap).images.length →
        hp1.images[a]? = (⟨[⟨1, 2, 1, 77, 5⟩], [[3], [10, 20]]⟩ : Heap).images[a]?) ∧
      (∀ a, a < (⟨[⟨1, 2, 1, 77, 5⟩], [[3], [10, 20]]⟩ : Heap).floats.length →
        hp1.floats[a]? = (⟨[⟨1, 2, 1, 77, 5⟩], [[3], [10, 20]]⟩ : Heap).floats[a]?) :=
  have hwf : WellFormedImage ⟨[⟨1, 2, 1, 77, 5⟩], [[3], [10, 20]]⟩ 0 :=
    ⟨⟨1, 2, 1, 77, 5⟩, [10, 20], rfl, rfl, by decide, by decide, by decide, rfl⟩
  ⟨hwf, getDeepCopy_equal_and_preserving _ 0 (fun _ => 99) hwf⟩
end DmvioDataset
